import Mathlib

/-!
Verification of the incremental display-update engine of
`src/basilisk/video_esp32.cpp` (M5Tab Macintosh port).

The C statics and functions are shallowly embedded: byte buffers and the
dirty-tile word arrays become functions `Nat → Nat`, machine integers become
`Nat` with explicit `% 2 ^ w` where C truncation matters, and the render
scheduler loop body becomes a step function on an explicit state record.
Every definition is translated from the source file; section comments cite
the function it embeds.
-/

set_option maxRecDepth 200000

namespace VideoEsp32

/-! ### Build-time configuration constants (video_esp32.cpp lines 62-96) -/

def MAC_SCREEN_WIDTH : Nat := 640
def MAC_SCREEN_HEIGHT : Nat := 360
def PIXEL_SCALE : Nat := 2
def DISPLAY_WIDTH : Nat := 1280
def DISPLAY_HEIGHT : Nat := 720
def TILE_WIDTH : Nat := 40
def TILE_HEIGHT : Nat := 40
def TILES_X : Nat := 16
def TILES_Y : Nat := 9
def TOTAL_TILES : Nat := TILES_X * TILES_Y
def DIRTY_THRESHOLD_PERCENT : Nat := 80

/-- Embedding of `frame_buffer_size` as set in `VideoInit`: `MAC_SCREEN_WIDTH * MAC_SCREEN_HEIGHT`. -/
def frame_buffer_size : Nat := MAC_SCREEN_WIDTH * MAC_SCREEN_HEIGHT

/-- Embedding of `use_write_dirty_tracking` (line 136): initialized `true` and never
reassigned anywhere in the source file. -/
def use_write_dirty_tracking : Bool := true

/-! ### Color conversion (rgb888_to_rgb565, lines 180-184) -/

/-- Embedding of `rgb888_to_rgb565(uint8 r, uint8 g, uint8 b)`:
`((r >> 3) << 3 | (g >> 5)) | (((g >> 2) << 5 | (b >> 3)) << 8)` computed in
`int` and truncated to `uint16` on return, hence the `% 65536`. -/
def rgb888_to_rgb565 (r g b : Nat) : Nat :=
  (((r >>> 3) <<< 3 ||| (g >>> 5)) ||| (((g >>> 2) <<< 5 ||| (b >>> 3)) <<< 8)) % 65536

/-- The packing documented in the source comment (lines 176-178), built from
the spec words: low byte holds the 5 red bits in bits 7-3 and the top 3 green
bits in bits 2-0; high byte holds the low 3 green bits in bits 7-5 and the
5 blue bits in bits 4-0; result is low byte ||| (high byte <<< 8). -/
def swap565_bytes (r g b : Nat) : Nat :=
  let lowByte := ((r >>> 3) <<< 3) ||| (g >>> 5)
  let highByte := (((g >>> 2) % 8) <<< 5) ||| (b >>> 3)
  lowByte ||| (highByte <<< 8)

/-! ### Tile geometry (VideoMarkDirtyOffset, lines 305-319) -/

/-- The tile-index computation of `VideoMarkDirtyOffset` expressed on pixel
coordinates: `tile_idx = (y / TILE_HEIGHT) * TILES_X + (x / TILE_WIDTH)`. -/
def tileIndexXY (x y : Nat) : Nat :=
  (y / TILE_HEIGHT) * TILES_X + (x / TILE_WIDTH)

/-- Tile index of a framebuffer byte offset, exactly as `VideoMarkDirtyOffset`
computes it: `y = offset / MAC_SCREEN_WIDTH`, `x = offset % MAC_SCREEN_WIDTH`. -/
def tileOfOffset (offset : Nat) : Nat :=
  tileIndexXY (offset % MAC_SCREEN_WIDTH) (offset / MAC_SCREEN_WIDTH)

/-- The rectangular pixel region geometrically covered by tile `k`
(column `k % TILES_X`, row `k / TILES_X`, each `TILE_WIDTH × TILE_HEIGHT`). -/
def inTileRegion (k x y : Nat) : Prop :=
  (k % TILES_X) * TILE_WIDTH ≤ x ∧ x < (k % TILES_X) * TILE_WIDTH + TILE_WIDTH ∧
  (k / TILES_X) * TILE_HEIGHT ≤ y ∧ y < (k / TILES_X) * TILE_HEIGHT + TILE_HEIGHT

/-! ### Helper lemmas about `|||` of disjoint bit ranges -/

theorem lor_shiftLeft_eq_add (k : Nat) :
    ∀ a b : Nat, b < 2 ^ k → (a <<< k) ||| b = a <<< k + b := by
  induction k with
  | zero =>
    intro a b hb
    interval_cases b
    simp
  | succ k ih =>
    intro a b hb
    have hdec : Nat.bit (decide (b % 2 = 1)) (b / 2) = b := by
      rcases Nat.mod_two_eq_zero_or_one b with h | h <;> simp [Nat.bit_val, h] <;> omega
    have hsh : a <<< (k+1) = Nat.bit false (a <<< k) := by
      simp [Nat.bit_val, Nat.shiftLeft_succ, Nat.mul_comm]
    have hb2 : b / 2 < 2 ^ k := by
      have h2 : (2:Nat) ^ (k+1) = 2 ^ k * 2 := by ring
      omega
    rw [hsh, ← hdec, Nat.lor_bit, ih a (b / 2) hb2]
    rcases Nat.mod_two_eq_zero_or_one b with h | h <;> simp [Nat.bit_val, h] <;> omega

/-- Claim C9: the RGB888-to-display conversion is the exact documented
byte-swapped RGB565 packing (low byte `RRRRRGGG`, high byte `GGGBBBBB`),
and in particular RGB (255, 0, 0) maps to the fixed 16-bit value 0x00F8. -/
theorem rgb888_packing_correct :
    (∀ r g b : Nat, r < 256 → g < 256 → b < 256 →
      rgb888_to_rgb565 r g b = swap565_bytes r g b) ∧
    rgb888_to_rgb565 255 0 0 = 0xF8 := by
  constructor
  · intro r g b hr hg hb
    unfold rgb888_to_rgb565 swap565_bytes
    have e3 : ∀ x : Nat, x <<< 3 = x * 8 := fun x => by rw [Nat.shiftLeft_eq]
    have e5 : ∀ x : Nat, x <<< 5 = x * 32 := fun x => by rw [Nat.shiftLeft_eq]
    have e8 : ∀ x : Nat, x <<< 8 = x * 256 := fun x => by rw [Nat.shiftLeft_eq]
    have d3 : ∀ x : Nat, x >>> 3 = x / 8 := fun x => by rw [Nat.shiftRight_eq_div_pow]
    have d5 : ∀ x : Nat, x >>> 5 = x / 32 := fun x => by rw [Nat.shiftRight_eq_div_pow]
    have d2 : ∀ x : Nat, x >>> 2 = x / 4 := fun x => by rw [Nat.shiftRight_eq_div_pow]
    have hlow : (r >>> 3) <<< 3 ||| (g >>> 5) = (r / 8) * 8 + g / 32 := by
      rw [lor_shiftLeft_eq_add 3 (r >>> 3) (g >>> 5) (by rw [d5]; omega), e3, d3, d5]
    have hinner : (g >>> 2) <<< 5 ||| (b >>> 3) = (g / 4) * 32 + b / 8 := by
      rw [lor_shiftLeft_eq_add 5 (g >>> 2) (b >>> 3) (by rw [d3]; omega), e5, d2, d3]
    have hinnerH : ((g >>> 2) % 8) <<< 5 ||| (b >>> 3) = ((g / 4) % 8) * 32 + b / 8 := by
      rw [lor_shiftLeft_eq_add 5 ((g >>> 2) % 8) (b >>> 3) (by rw [d3]; omega), e5, d2, d3]
    have hlowlt : (r / 8) * 8 + g / 32 < 256 := by omega
    rw [hlow, hinner, hinnerH]
    rw [Nat.lor_comm ((r / 8) * 8 + g / 32) (((g / 4) * 32 + b / 8) <<< 8),
        Nat.lor_comm ((r / 8) * 8 + g / 32) ((((g / 4) % 8) * 32 + b / 8) <<< 8)]
    rw [lor_shiftLeft_eq_add 8 _ _ hlowlt, lor_shiftLeft_eq_add 8 _ _ hlowlt, e8, e8]
    omega
  · rfl

/-- Witness for C9 at a concrete color triple. -/
theorem rgb888_packing_correct_witness :
    rgb888_to_rgb565 200 100 50 = swap565_bytes 200 100 50 :=
  rgb888_packing_correct.1 200 100 50 (by decide) (by decide) (by decide)

/-- Claim C5: the tile-index function assigns to every valid source pixel
exactly one tile index below `TOTAL_TILES = 144`, and the 144 tiles of size
40×40 exactly partition the 640×360 source buffer: a pixel lies in the
geometric region of tile `k` iff `k` is its computed tile index, and the
tile grid covers the buffer with no remainder (40·16 = 640, 40·9 = 360). -/
theorem tile_partition :
    (TILE_WIDTH * TILES_X = MAC_SCREEN_WIDTH ∧ TILE_HEIGHT * TILES_Y = MAC_SCREEN_HEIGHT) ∧
    (∀ x y : Nat, x < MAC_SCREEN_WIDTH → y < MAC_SCREEN_HEIGHT →
      tileIndexXY x y < TOTAL_TILES ∧
      ∀ k : Nat, k < TOTAL_TILES → (inTileRegion k x y ↔ tileIndexXY x y = k)) := by
  constructor
  · constructor <;> rfl
  · intro x y hx hy
    simp only [MAC_SCREEN_WIDTH, MAC_SCREEN_HEIGHT] at hx hy
    constructor
    · simp only [tileIndexXY, TILE_HEIGHT, TILE_WIDTH, TILES_X, TILES_Y, TOTAL_TILES]
      omega
    · intro k hk
      simp only [TOTAL_TILES, TILES_X, TILES_Y] at hk
      simp only [inTileRegion, tileIndexXY, TILE_HEIGHT, TILE_WIDTH, TILES_X]
      omega

/-- Witness for C5 at a concrete pixel and tile index. -/
theorem tile_partition_witness :
    tileIndexXY 100 200 < TOTAL_TILES ∧
    (inTileRegion 82 100 200 ↔ tileIndexXY 100 200 = 82) :=
  ⟨(tile_partition.2 100 200 (by decide) (by decide)).1,
   (tile_partition.2 100 200 (by decide) (by decide)).2 82 (by decide)⟩

/-! ### Write-time dirty tracking (lines 305-370)

The bitmap `static uint32 write_dirty_tiles[(TOTAL_TILES + 31) / 32]` is
embedded as a word-array function `Nat → Nat`; word values stay below
`2 ^ 32` because only bit positions `tile_idx % 32` are ever set. -/

/-- Number of 32-bit words in the dirty bitmaps: `(TOTAL_TILES + 31) / 32`. -/
def DIRTY_WORDS : Nat := (TOTAL_TILES + 31) / 32

/-- Embedding of `VideoMarkDirtyOffset(uint32 offset)` (lines 305-319): guard on the
tracking flag and on `offset >= frame_buffer_size`, then atomic OR of bit
`tile_idx % 32` into word `tile_idx / 32` of the write bitmap. The early
returns of the C function are rendered pointwise on the word array. -/
def VideoMarkDirtyOffset (s : Nat → Nat) (offset : Nat) : Nat → Nat := fun i =>
  if use_write_dirty_tracking = false then s i
  else if frame_buffer_size ≤ offset then s i
  else if i = tileOfOffset offset / 32
    then s i ||| (1 <<< (tileOfOffset offset % 32))
    else s i

/-- Embedding of `VideoMarkDirtyRange(uint32 offset, uint32 size)` (lines 328-345):
clamp `size` when the 32-bit sum `offset + size` — which wraps mod `2^32` —
exceeds the framebuffer size, mark the start tile, and mark the end tile at
the 32-bit offset `offset + size - 1` when `size > 1`. The clamped value
`frame_buffer_size - offset` cannot wrap because the guard already ensures
`offset < frame_buffer_size`; the end-tile offset is reduced mod `2^32`
exactly as the `uint32` addition does. -/
def VideoMarkDirtyRange (s : Nat → Nat) (offset size : Nat) : Nat → Nat := fun i =>
  if use_write_dirty_tracking = false then s i
  else if frame_buffer_size ≤ offset then s i
  else
    let size2 := if frame_buffer_size < (offset + size) % 4294967296
      then frame_buffer_size - offset else size
    let s1 := VideoMarkDirtyOffset s offset
    if 1 < size2 then VideoMarkDirtyOffset s1 ((offset + size2 - 1) % 4294967296) i else s1 i

/-- The popcount while-loop of `collectWriteDirtyTiles` (lines 363-366):
`while (bits) { count += (bits & 1); bits >>= 1; }`. The first argument is
fuel bounding the iteration count; `bits` is a `uint32` word so the loop
runs at most 32 iterations. -/
def popcountFuel : Nat → Nat → Nat → Nat
  | 0, _, count => count
  | fuel + 1, bits, count =>
    if bits = 0 then count else popcountFuel fuel (bits >>> 1) (count + (bits &&& 1))

/-- The loop entry point: run the while-loop on a 32-bit word `bits`
starting from `count`. -/
def popcountLoop (bits count : Nat) : Nat := popcountFuel 32 bits count

/-- Embedding of `collectWriteDirtyTiles()` (lines 352-370) acting on the write bitmap `w`
and the render bitmap `d`: for each word, atomically exchange the write word
with zero, store the prior bits into the render bitmap, and accumulate the
popcount. Result: (render bitmap, cleared write bitmap, dirty count). -/
def collectWriteDirtyTiles (w d : Nat → Nat) : (Nat → Nat) × (Nat → Nat) × Nat :=
  ((fun i => if i < DIRTY_WORDS then w i else d i),
   (fun i => if i < DIRTY_WORDS then 0 else w i),
   (List.range DIRTY_WORDS).foldl (fun count i => popcountLoop (w i) count) 0)

/-- A tile index computed from an in-bounds framebuffer offset is a valid
tile index. -/
theorem tileOfOffset_lt (offset : Nat) (h : offset < frame_buffer_size) :
    tileOfOffset offset < TOTAL_TILES := by
  simp only [tileOfOffset, tileIndexXY, frame_buffer_size, MAC_SCREEN_WIDTH,
    MAC_SCREEN_HEIGHT, TILE_WIDTH, TILE_HEIGHT, TILES_X, TILES_Y, TOTAL_TILES] at *
  omega

/-- Pointwise evaluation of `VideoMarkDirtyOffset`: the guards collapse to a
single condition since the tracking flag is constant `true`. -/
theorem markOffset_apply (s : Nat → Nat) (offset i : Nat) :
    VideoMarkDirtyOffset s offset i =
      if offset < frame_buffer_size ∧ i = tileOfOffset offset / 32
      then s i ||| 2 ^ (tileOfOffset offset % 32) else s i := by
  unfold VideoMarkDirtyOffset
  rw [Nat.one_shiftLeft]
  simp only [use_write_dirty_tracking, Bool.true_eq_false, if_false]
  by_cases hb : frame_buffer_size ≤ offset
  · rw [if_pos hb, if_neg (fun h => absurd h.1 (Nat.not_lt.mpr hb))]
  · rw [if_neg hb]
    by_cases hi : i = tileOfOffset offset / 32
    · rw [if_pos hi, if_pos ⟨Nat.lt_of_not_le hb, hi⟩]
    · rw [if_neg hi, if_neg (fun h => hi h.2)]

/-- Bit-level characterization of one `VideoMarkDirtyOffset` call: tile `t`
is set afterwards iff it was set before or the offset is in bounds and maps
to `t`. -/
theorem markOffset_testBit (s : Nat → Nat) (offset t : Nat) (ht : t < TOTAL_TILES) :
    (Nat.testBit ((VideoMarkDirtyOffset s offset) (t / 32)) (t % 32) = true ↔
      Nat.testBit (s (t / 32)) (t % 32) = true ∨
        (offset < frame_buffer_size ∧ tileOfOffset offset = t)) := by
  rw [markOffset_apply]
  by_cases hc : offset < frame_buffer_size ∧ t / 32 = tileOfOffset offset / 32
  · rw [if_pos hc]
    rw [Nat.testBit_lor, Nat.testBit_two_pow]
    constructor
    · intro h
      rcases Bool.or_eq_true_iff.mp h with h1 | h1
      · exact Or.inl h1
      · have h2 : tileOfOffset offset % 32 = t % 32 := of_decide_eq_true h1
        exact Or.inr ⟨hc.1, by omega⟩
    · rintro (h1 | ⟨-, h2⟩)
      · exact Bool.or_eq_true_iff.mpr (Or.inl h1)
      · refine Bool.or_eq_true_iff.mpr (Or.inr ?_)
        subst h2
        simp
  · rw [if_neg hc]
    constructor
    · exact Or.inl
    · rintro (h1 | ⟨h2, h3⟩)
      · exact h1
      · exact absurd ⟨h2, by rw [← h3]⟩ hc

/-- Marking via `VideoMarkDirtyOffset` leaves every word with index
`≥ DIRTY_WORDS` unchanged. -/
theorem markOffset_word_eq (s : Nat → Nat) (offset i : Nat) (hi : DIRTY_WORDS ≤ i) :
    (VideoMarkDirtyOffset s offset) i = s i := by
  rw [markOffset_apply]
  by_cases hb : offset < frame_buffer_size
  · have htile := tileOfOffset_lt offset hb
    have hw : tileOfOffset offset / 32 < DIRTY_WORDS := by
      simp only [TOTAL_TILES, TILES_X, TILES_Y, DIRTY_WORDS] at htile ⊢
      omega
    rw [if_neg (fun h => by omega)]
  · rw [if_neg (fun h => absurd h.1 hb)]

/-- Claim C4 (amended): for an in-bounds multi-byte write whose 32-bit
bounds test does not wrap (`offset + size < 2^32`), `VideoMarkDirtyRange`
first clamps the size so the write never passes the framebuffer end, and
then marks exactly the tiles containing the first byte and the (clamped)
last byte; no other tile changes state, so interior tiles of a long write
stay unmarked. When `offset + size` overflows `uint32` the wrapped sum
defeats the clamp and the code marks the tile of the wrapped last-byte
offset instead (see the counterexample). -/
theorem markRange_first_last :
    ∀ (s : Nat → Nat) (offset size : Nat), offset < frame_buffer_size → 1 < size →
      offset + size < 4294967296 →
      (offset + min size (frame_buffer_size - offset) ≤ frame_buffer_size) ∧
      ∀ t, t < TOTAL_TILES →
        (Nat.testBit ((VideoMarkDirtyRange s offset size) (t / 32)) (t % 32) = true ↔
          Nat.testBit (s (t / 32)) (t % 32) = true ∨ t = tileOfOffset offset ∨
            t = tileOfOffset (offset + min size (frame_buffer_size - offset) - 1)) := by
  intro s offset size hoff hsz hw
  have hmin : (if frame_buffer_size < (offset + size) % 4294967296
        then frame_buffer_size - offset else size)
      = min size (frame_buffer_size - offset) := by
    rw [Nat.mod_eq_of_lt hw]
    split <;> omega
  have hlastmod : (offset + min size (frame_buffer_size - offset) - 1) % 4294967296
      = offset + min size (frame_buffer_size - offset) - 1 :=
    Nat.mod_eq_of_lt (by omega)
  refine ⟨by omega, ?_⟩
  intro t ht
  have happ : ∀ i, VideoMarkDirtyRange s offset size i =
      if 1 < min size (frame_buffer_size - offset)
      then VideoMarkDirtyOffset (VideoMarkDirtyOffset s offset)
        (offset + min size (frame_buffer_size - offset) - 1) i
      else VideoMarkDirtyOffset s offset i := by
    intro i
    unfold VideoMarkDirtyRange
    rw [if_neg (by simp [use_write_dirty_tracking]), if_neg (Nat.not_le.mpr hoff)]
    simp only [hmin, hlastmod]
  rw [happ]
  have hlast : offset + min size (frame_buffer_size - offset) - 1 < frame_buffer_size := by
    omega
  by_cases h2 : 1 < min size (frame_buffer_size - offset)
  · rw [if_pos h2]
    rw [markOffset_testBit _ _ _ ht, markOffset_testBit _ _ _ ht]
    constructor
    · rintro ((h | ⟨-, h⟩) | ⟨-, h⟩)
      · exact Or.inl h
      · exact Or.inr (Or.inl h.symm)
      · exact Or.inr (Or.inr h.symm)
    · rintro (h | h | h)
      · exact Or.inl (Or.inl h)
      · exact Or.inl (Or.inr ⟨hoff, h.symm⟩)
      · exact Or.inr ⟨hlast, h.symm⟩
  · rw [if_neg h2]
    have hone : min size (frame_buffer_size - offset) = 1 := by omega
    rw [hone]
    simp only [Nat.add_sub_cancel]
    rw [markOffset_testBit _ _ _ ht]
    constructor
    · rintro (h | ⟨-, h⟩)
      · exact Or.inl h
      · exact Or.inr (Or.inl h.symm)
    · rintro (h | h | h)
      · exact Or.inl h
      · exact Or.inr ⟨hoff, h.symm⟩
      · exact Or.inr ⟨hoff, h.symm⟩

/-- Counterexample for C4 as originally stated: at `offset = 100`,
`size = 2^32 - 50` (both representable `uint32` values, a write extending
past the framebuffer end) the 32-bit sum wraps to 50, the clamp is skipped,
and the code marks tile 1 — the tile of the wrapped last-byte offset 49 —
while the tile 143 of the clamped last byte 230399 stays unmarked; tile 1
is neither the first-byte tile (2) nor the claimed last-byte tile (143). -/
theorem markRange_wrap_counterexample :
    Nat.testBit ((VideoMarkDirtyRange (fun _ => 0) 100 4294967246) (1 / 32)) (1 % 32) = true ∧
    Nat.testBit ((VideoMarkDirtyRange (fun _ => 0) 100 4294967246) (143 / 32)) (143 % 32)
      = false ∧
    tileOfOffset (100 + min 4294967246 (frame_buffer_size - 100) - 1) = 143 ∧
    tileOfOffset 100 = 2 ∧
    frame_buffer_size < 100 + 4294967246 := by
  refine ⟨by decide, by decide, by decide, by decide, by decide⟩

/-- Witness for C4 (amended): a 100-byte write at offset 0 marks tiles 0
and 2 but not the interior tile 1. -/
theorem markRange_first_last_witness :
    (0 + min 100 (frame_buffer_size - 0) ≤ frame_buffer_size) ∧
    (Nat.testBit ((VideoMarkDirtyRange (fun _ => 0) 0 100) (1 / 32)) (1 % 32) = true ↔
      Nat.testBit ((fun (_ : Nat) => 0) (1 / 32)) (1 % 32) = true ∨ (1 : Nat) = tileOfOffset 0 ∨
        (1 : Nat) = tileOfOffset (0 + min 100 (frame_buffer_size - 0) - 1)) :=
  ⟨(markRange_first_last (fun _ => 0) 0 100 (by decide) (by decide) (by decide)).1,
   (markRange_first_last (fun _ => 0) 0 100 (by decide) (by decide) (by decide)).2 1 (by decide)⟩

/-! ### Popcount correctness -/

theorem popcountFuel_eq (fuel : Nat) : ∀ bits count : Nat, bits < 2 ^ fuel →
    popcountFuel fuel bits count
      = count + ((Finset.range fuel).filter (fun i => bits.testBit i)).card := by
  induction fuel with
  | zero =>
    intro bits count h
    interval_cases bits
    simp [popcountFuel]
  | succ fuel ih =>
    intro bits count h
    by_cases hz : bits = 0
    · subst hz
      simp [popcountFuel]
    · rw [popcountFuel, if_neg hz]
      have hhalf : bits >>> 1 < 2 ^ fuel := by
        rw [Nat.shiftRight_eq_div_pow, pow_one]
        have h2 : (2:Nat) ^ (fuel+1) = 2 ^ fuel * 2 := by ring
        omega
      rw [ih _ _ hhalf]
      have h0 : (if bits.testBit 0 then 1 else 0) = bits &&& 1 := by
        rw [Nat.and_one_is_mod, Nat.testBit_zero]
        rcases Nat.mod_two_eq_zero_or_one bits with hm | hm <;> simp [hm]
      have hshift : ∀ i, (bits >>> 1).testBit i = bits.testBit (i+1) := by
        intro i
        rw [Nat.shiftRight_eq_div_pow, pow_one, Nat.testBit_div_two]
      have hcard : ((Finset.range (fuel+1)).filter (fun i => bits.testBit i)).card
          = (bits &&& 1)
            + ((Finset.range fuel).filter (fun i => (bits >>> 1).testBit i)).card := by
        rw [Finset.card_filter, Finset.card_filter, Finset.sum_range_succ', h0]
        rw [Finset.sum_congr rfl (fun i _ => by rw [← hshift i])]
        omega
      omega

/-- The while-loop popcount counts exactly the set bits, provided all set
bits sit below position 32 (true of every dirty-bitmap word). -/
theorem popcountLoop_eq (w c : Nat) (hw : ∀ j, w.testBit j = true → j < 32) :
    popcountLoop w c = c + ((Finset.range 32).filter (fun j => w.testBit j)).card := by
  unfold popcountLoop
  have hlt : w < 2 ^ 32 := by
    apply Nat.lt_pow_two_of_testBit
    intro i hi
    cases h : w.testBit i
    · rfl
    · exact absurd (hw i h) (by omega)
  exact popcountFuel_eq 32 w c hlt

/-! ### Dirty count equals cardinality of the set of dirty tiles -/

/-- All bits ever set in the write bitmap denote valid tiles: bit positions
below 32 and tile indices below `TOTAL_TILES`. -/
def goodWords (w : Nat → Nat) : Prop :=
  ∀ i j, (w i).testBit j = true → j < 32 ∧ 32 * i + j < TOTAL_TILES

/-- The set of tile indices whose bit is set in a bitmap. -/
def tilesSet (w : Nat → Nat) : Finset Nat :=
  (Finset.range TOTAL_TILES).filter (fun t => (w (t / 32)).testBit (t % 32))

theorem goodWords_zero : goodWords (fun _ => 0) := by
  intro i j hbit
  simp at hbit

theorem collect_fold_eq_sum (w : Nat → Nat) (hw : goodWords w) : ∀ k,
    (List.range k).foldl (fun count i => popcountLoop (w i) count) 0
      = ∑ i ∈ Finset.range k, ((Finset.range 32).filter (fun j => (w i).testBit j)).card := by
  intro k
  induction k with
  | zero => simp
  | succ k ih =>
    rw [List.range_succ k, List.foldl_append]
    simp only [List.foldl_cons, List.foldl_nil]
    rw [ih, Finset.sum_range_succ]
    rw [popcountLoop_eq (w k) _ (fun j hj => (hw k j hj).1)]

theorem sum_word_cards (w : Nat → Nat) : ∀ k,
    ∑ i ∈ Finset.range k, ((Finset.range 32).filter (fun j => (w i).testBit j)).card
      = ((Finset.range (32 * k)).filter (fun t => (w (t / 32)).testBit (t % 32))).card := by
  intro k
  induction k with
  | zero => simp
  | succ k ih =>
    rw [Finset.sum_range_succ, ih]
    have hsplit : Finset.range (32 * (k+1))
        = Finset.range (32 * k) ∪ Finset.Ico (32 * k) (32 * (k+1)) := by
      rw [Finset.range_eq_Ico]
      exact (Finset.Ico_union_Ico_eq_Ico (Nat.zero_le _) (by omega)).symm
    rw [hsplit, Finset.filter_union, Finset.card_union_of_disjoint]
    · congr 1
      have himg : Finset.Ico (32 * k) (32 * (k+1))
          = (Finset.range 32).image (fun j => 32 * k + j) := by
        ext i
        simp only [Finset.mem_Ico, Finset.mem_image, Finset.mem_range]
        constructor
        · intro h
          exact ⟨i - 32 * k, by omega, by omega⟩
        · rintro ⟨j, hj, rfl⟩
          omega
      rw [himg, Finset.filter_image]
      rw [Finset.card_image_of_injective _ (fun a b h => by omega)]
      congr 1
      apply Finset.filter_congr
      intro j hj
      simp only [Finset.mem_range] at hj
      have hd : (32 * k + j) / 32 = k := by omega
      have hm : (32 * k + j) % 32 = j := by omega
      rw [hd, hm]
    · apply Finset.disjoint_filter_filter
      rw [Finset.range_eq_Ico]
      exact Finset.Ico_disjoint_Ico_consecutive 0 (32 * k) (32 * (k+1))

theorem filter_tiles_extend (w : Nat → Nat) (hw : goodWords w) :
    (Finset.range (32 * DIRTY_WORDS)).filter (fun t => (w (t / 32)).testBit (t % 32))
      = tilesSet w := by
  unfold tilesSet
  ext t
  simp only [Finset.mem_filter, Finset.mem_range]
  have hle : TOTAL_TILES ≤ 32 * DIRTY_WORDS := by
    simp only [TOTAL_TILES, TILES_X, TILES_Y, DIRTY_WORDS]
    omega
  constructor
  · rintro ⟨hlt, hbit⟩
    have := hw (t / 32) (t % 32) hbit
    exact ⟨by omega, hbit⟩
  · rintro ⟨hlt, hbit⟩
    exact ⟨by omega, hbit⟩

/-- The count returned by `collectWriteDirtyTiles` is exactly the number of
set tile bits of the drained write bitmap. -/
theorem collect_count_eq_card (w d : Nat → Nat) (hw : goodWords w) :
    (collectWriteDirtyTiles w d).2.2 = (tilesSet w).card := by
  show (List.range DIRTY_WORDS).foldl (fun count i => popcountLoop (w i) count) 0 = _
  rw [collect_fold_eq_sum w hw DIRTY_WORDS, sum_word_cards w DIRTY_WORDS,
    filter_tiles_extend w hw]

/-! ### Drain/mark trace semantics (Claim C2)

An arbitrary interleaving of producer `VideoMarkDirtyOffset` calls with
consumer `collectWriteDirtyTiles` drains is a list of segments: the `k`-th
segment holds the offsets marked between drain `k-1` and drain `k`. -/

/-- A sequence of producer mark calls applied to the write bitmap. -/
def markList (s : Nat → Nat) (offs : List Nat) : Nat → Nat :=
  offs.foldl VideoMarkDirtyOffset s

/-- Run the interleaving: for each segment, apply its marks, then drain.
Returns for each drain the pair (bitmap words handed to the renderer,
returned dirty count); the cleared write bitmap flows into the next
segment exactly as `collectWriteDirtyTiles` leaves it. -/
def runSegs (s : Nat → Nat) : List (List Nat) → List ((Nat → Nat) × Nat)
  | [] => []
  | seg :: rest =>
    let s1 := markList s seg
    let c := collectWriteDirtyTiles s1 (fun _ => 0)
    (c.1, c.2.2) :: runSegs c.2.1 rest

theorem markList_testBit : ∀ (offs : List Nat) (s : Nat → Nat) (t : Nat), t < TOTAL_TILES →
    (Nat.testBit ((markList s offs) (t / 32)) (t % 32) = true ↔
      Nat.testBit (s (t / 32)) (t % 32) = true ∨
        ∃ off ∈ offs, off < frame_buffer_size ∧ tileOfOffset off = t) := by
  intro offs
  induction offs with
  | nil =>
    intro s t ht
    simp [markList]
  | cons o rest ih =>
    intro s t ht
    have hstep : markList s (o :: rest) = markList (VideoMarkDirtyOffset s o) rest := by
      simp [markList]
    rw [hstep, ih (VideoMarkDirtyOffset s o) t ht, markOffset_testBit s o t ht]
    simp only [List.mem_cons]
    constructor
    · rintro ((h | ⟨h1, h2⟩) | ⟨off, hmem, hoff⟩)
      · exact Or.inl h
      · exact Or.inr ⟨o, Or.inl rfl, h1, h2⟩
      · exact Or.inr ⟨off, Or.inr hmem, hoff⟩
    · rintro (h | ⟨off, hmem | hmem, hoff⟩)
      · exact Or.inl (Or.inl h)
      · subst hmem
        exact Or.inl (Or.inr hoff)
      · exact Or.inr ⟨off, hmem, hoff⟩

theorem markList_word_eq : ∀ (offs : List Nat) (s : Nat → Nat) (i : Nat), DIRTY_WORDS ≤ i →
    markList s offs i = s i := by
  intro offs
  induction offs with
  | nil =>
    intro s i hi
    simp [markList]
  | cons o rest ih =>
    intro s i hi
    have hstep : markList s (o :: rest) = markList (VideoMarkDirtyOffset s o) rest := by
      simp [markList]
    rw [hstep, ih _ i hi, markOffset_word_eq s o i hi]

theorem markOffset_good (s : Nat → Nat) (offset : Nat) (h : goodWords s) :
    goodWords (VideoMarkDirtyOffset s offset) := by
  intro i j hbit
  rw [markOffset_apply] at hbit
  by_cases hc : offset < frame_buffer_size ∧ i = tileOfOffset offset / 32
  · rw [if_pos hc] at hbit
    rw [Nat.testBit_lor] at hbit
    rcases Bool.or_eq_true_iff.mp hbit with h1 | h1
    · exact h i j h1
    · rw [Nat.testBit_two_pow] at h1
      have hj : tileOfOffset offset % 32 = j := of_decide_eq_true h1
      have hti := tileOfOffset_lt offset hc.1
      rcases hc with ⟨-, hc2⟩
      subst hc2
      exact ⟨by omega, by omega⟩
  · rw [if_neg hc] at hbit
    exact h i j hbit

theorem markList_good : ∀ (offs : List Nat) (s : Nat → Nat), goodWords s →
    goodWords (markList s offs) := by
  intro offs
  induction offs with
  | nil =>
    intro s h
    simpa [markList] using h
  | cons o rest ih =>
    intro s h
    have hstep : markList s (o :: rest) = markList (VideoMarkDirtyOffset s o) rest := by
      simp [markList]
    rw [hstep]
    exact ih _ (markOffset_good s o h)

theorem goodWords_of_zero (s : Nat → Nat) (hs : ∀ i, s i = 0) : goodWords s := by
  intro i j hbit
  rw [hs i] at hbit
  simp at hbit

theorem tilesSet_restrict (w d : Nat → Nat) :
    tilesSet (fun i => if i < DIRTY_WORDS then w i else d i) = tilesSet w := by
  unfold tilesSet
  apply Finset.filter_congr
  intro t ht
  simp only [Finset.mem_range] at ht
  have hlt : t / 32 < DIRTY_WORDS := by
    simp only [TOTAL_TILES, TILES_X, TILES_Y, DIRTY_WORDS] at ht ⊢
    omega
  simp [hlt]

theorem runSegs_aux : ∀ (segs : List (List Nat)) (s : Nat → Nat), (∀ i, s i = 0) →
    ∀ k, k < segs.length → ∀ t, t < TOTAL_TILES →
      ((Nat.testBit (((runSegs s segs).getD k ((fun _ => 0), 0)).1 (t / 32)) (t % 32) = true ↔
          ∃ off ∈ segs.getD k [], off < frame_buffer_size ∧ tileOfOffset off = t)
        ∧ ((runSegs s segs).getD k ((fun _ => 0), 0)).2
            = (tilesSet (((runSegs s segs).getD k ((fun _ => 0), 0)).1)).card) := by
  intro segs
  induction segs with
  | nil =>
    intro s hs k hk
    simp at hk
  | cons seg rest ih =>
    intro s hs k hk t ht
    cases k with
    | zero =>
      show (Nat.testBit (((runSegs s (seg :: rest)).getD 0 ((fun _ => 0), 0)).1 (t / 32))
          (t % 32) = true ↔ _) ∧ _
      have hrun : (runSegs s (seg :: rest)).getD 0 ((fun _ => 0), 0)
          = ((collectWriteDirtyTiles (markList s seg) (fun _ => 0)).1,
             (collectWriteDirtyTiles (markList s seg) (fun _ => 0)).2.2) := by
        simp [runSegs]
      rw [hrun]
      have hword : t / 32 < DIRTY_WORDS := by
        simp only [TOTAL_TILES, TILES_X, TILES_Y, DIRTY_WORDS] at ht ⊢
        omega
      have hfst : (collectWriteDirtyTiles (markList s seg) (fun _ => 0)).1 (t / 32)
          = markList s seg (t / 32) := by
        show (if t / 32 < DIRTY_WORDS then markList s seg (t / 32) else (0:Nat)) = _
        rw [if_pos hword]
      constructor
      · rw [hfst, markList_testBit seg s t ht, hs (t / 32)]
        simp
      · have hgood : goodWords (markList s seg) :=
          markList_good seg s (goodWords_of_zero s hs)
        rw [collect_count_eq_card _ _ hgood]
        have hset : tilesSet ((collectWriteDirtyTiles (markList s seg) (fun _ => 0)).1)
            = tilesSet (markList s seg) := tilesSet_restrict _ _
        rw [hset]
    | succ k =>
      have hnext : ∀ i, (collectWriteDirtyTiles (markList s seg) (fun _ => 0)).2.1 i = 0 := by
        intro i
        show (if i < DIRTY_WORDS then (0:Nat) else markList s seg i) = 0
        by_cases hi : i < DIRTY_WORDS
        · rw [if_pos hi]
        · rw [if_neg hi, markList_word_eq seg s i (by omega), hs i]
      have hk2 : k < rest.length := by
        simpa using hk
      have hres := ih ((collectWriteDirtyTiles (markList s seg) (fun _ => 0)).2.1)
        hnext k hk2 t ht
      have hrun : (runSegs s (seg :: rest)).getD (k+1) ((fun _ => 0), 0)
          = (runSegs ((collectWriteDirtyTiles (markList s seg) (fun _ => 0)).2.1)
              rest).getD k ((fun _ => 0), 0) := by
        simp [runSegs]
      have hseg : (seg :: rest).getD (k+1) [] = rest.getD k [] := by
        simp
      rw [hrun, hseg]
      exact hres

/-- Claim C2: in any interleaving of `VideoMarkDirtyOffset` calls with
`collectWriteDirtyTiles` drains (starting from the all-clear bitmap), each
drain reports exactly the tiles of the in-bounds offsets marked since the
previous drain: every mark is reported by precisely the first drain that
starts after it, no mark is lost, no mark is reported by two drains; and
each drain returns the popcount of the bits it atomically exchanged with
zero. -/
theorem drain_completeness :
    ∀ (segs : List (List Nat)) (k : Nat), k < segs.length → ∀ t, t < TOTAL_TILES →
      ((Nat.testBit (((runSegs (fun _ => 0) segs).getD k ((fun _ => 0), 0)).1 (t / 32))
          (t % 32) = true ↔
          ∃ off ∈ segs.getD k [], off < frame_buffer_size ∧ tileOfOffset off = t)
        ∧ ((runSegs (fun _ => 0) segs).getD k ((fun _ => 0), 0)).2
            = (tilesSet (((runSegs (fun _ => 0) segs).getD k ((fun _ => 0), 0)).1)).card) :=
  fun segs k hk t ht => runSegs_aux segs (fun _ => 0) (fun _ => rfl) k hk t ht

/-- Witness for C2 on the concrete interleaving mark 0, drain, mark 641,
drain, at tile 0 of the first drain. -/
theorem drain_completeness_witness :
    (Nat.testBit (((runSegs (fun _ => 0) [[0], [641]]).getD 0 ((fun _ => 0), 0)).1 (0 / 32))
        (0 % 32) = true ↔
        ∃ off ∈ [[0], [641]].getD 0 [], off < frame_buffer_size ∧ tileOfOffset off = 0)
      ∧ ((runSegs (fun _ => 0) [[0], [641]]).getD 0 ((fun _ => 0), 0)).2
          = (tilesSet (((runSegs (fun _ => 0) [[0], [641]]).getD 0 ((fun _ => 0), 0)).1)).card :=
  drain_completeness [[0], [641]] 0 (by decide) 0 (by decide)

/-! ### Fallback frame-comparison dirty detection (lines 252-289)

Used by the scheduler only when `use_write_dirty_tracking` is off; embedded
for completeness of the step function. -/

/-- A 32-bit little-endian word read from a byte buffer, as performed by the
`uint32*` casts in the compare and render loops. -/
def word32At (buf : Nat → Nat) (off : Nat) : Nat :=
  buf off + 256 * buf (off + 1) + 65536 * buf (off + 2) + 16777216 * buf (off + 3)

/-- The per-tile compare loop of `detectDirtyTiles` with its early exits:
a tile is dirty iff some 32-bit word of some row differs. -/
def tileCmpDirty (cur prev : Nat → Nat) (tx ty : Nat) : Bool :=
  (List.range TILE_HEIGHT).any (fun row =>
    (List.range (TILE_WIDTH / 4)).any (fun w =>
      word32At cur ((ty * TILE_HEIGHT + row) * MAC_SCREEN_WIDTH + tx * TILE_WIDTH + 4 * w)
        != word32At prev ((ty * TILE_HEIGHT + row) * MAC_SCREEN_WIDTH + tx * TILE_WIDTH + 4 * w)))

/-- Setting one tile bit in the render bitmap
(`dirty_tiles[tile_idx / 32] |= 1 << (tile_idx % 32)`). -/
def setTileBit (bm : Nat → Nat) (ti : Nat) : Nat → Nat :=
  fun i => if i = ti / 32 then bm i ||| (1 <<< (ti % 32)) else bm i

/-- Embedding of `detectDirtyTiles(current, previous)` (lines 252-289): zero the render
bitmap, then walk the tile grid in row-major order setting the bit of every
differing tile and counting them. -/
def detectDirtyTiles (cur prev : Nat → Nat) : (Nat → Nat) × Nat :=
  ((List.range TOTAL_TILES).foldl
     (fun bm ti =>
       if tileCmpDirty cur prev (ti % TILES_X) (ti / TILES_X) then setTileBit bm ti else bm)
     (fun _ => 0),
   ((List.range TOTAL_TILES).filter
     (fun ti => tileCmpDirty cur prev (ti % TILES_X) (ti / TILES_X))).length)

/-- Embedding of `isTileDirty` (lines 294-297). -/
def isTileDirty (d : Nat → Nat) (tile_idx : Nat) : Bool :=
  (d (tile_idx / 32) &&& (1 <<< (tile_idx % 32))) != 0

/-- The display windows pushed by `renderAndPushDirtyTiles` (lines 635-678):
one `TILE_WIDTH*PIXEL_SCALE` square window per dirty tile, visited in
row-major tile order. -/
def tilePushRects (d : Nat → Nat) : List (Nat × Nat × Nat × Nat) :=
  ((List.range TOTAL_TILES).filter (fun ti => isTileDirty d ti)).map
    (fun ti => ((ti % TILES_X) * TILE_WIDTH * PIXEL_SCALE,
                (ti / TILES_X) * TILE_HEIGHT * PIXEL_SCALE,
                TILE_WIDTH * PIXEL_SCALE, TILE_HEIGHT * PIXEL_SCALE))

/-! ### Render scheduler state machine (videoRenderTaskOptimized, lines 942-1075)

The static variables of video_esp32.cpp together with the loop locals form
the scheduler state. Pixel production is abstracted to the log of display
windows pushed (`pushes`); everything that drives the full/partial/skip
decision is embedded exactly. -/

structure VState where
  frameReady : Bool
  notifCount : Nat
  macBuf : Nat → Nat
  snapBuf : Nat → Nat
  compBuf : Nat → Nat
  palette : Nat → Nat
  writeDirty : Nat → Nat
  dirtyTiles : Nat → Nat
  dirtyCount : Nat
  forceFull : Bool
  useWriteTracking : Bool
  lastFrameTicks : Nat
  pushes : List (Nat × Nat × Nat × Nat)
  perfFullCount : Nat
  perfPartialCount : Nat
  perfSkipCount : Nat
  perfFrameCount : Nat

inductive StepOutcome where
  | abandoned
  | fullUpdate
  | tileUpdate
  | skipped
deriving DecidableEq

/-- Value of `pdMS_TO_TICKS(67)`, the minimum frame interval (line 960), in ms ticks. -/
def minFrameTicks : Nat := 67

/-- Value of `(TOTAL_TILES * DIRTY_THRESHOLD_PERCENT) / 100` (lines 1008, 1026). -/
def dirtyThreshold : Nat := (TOTAL_TILES * DIRTY_THRESHOLD_PERCENT) / 100

/-- Lines 967-971: `ulTaskNotifyTake(pdTRUE, ...)` clears the notification
count and `frame_ready = false` clears the legacy flag, before the rate
check runs. -/
def stepSignalConsumed (s : VState) : VState :=
  { s with notifCount := 0, frameReady := false }

/-- Lines 994-1032: decide whether a full update is needed and drain dirty
tiles. Returns the updated state and the `do_full_update` flag contribution
of the threshold check. In the fallback branch `takeFrameSnapshot` copies
the live framebuffer into the snapshot, `detectDirtyTiles` compares it with
the compare buffer, and `swapBuffers` exchanges the two pointers. -/
def stepDetect (s1 : VState) : VState × Bool :=
  if s1.forceFull = false ∧ s1.useWriteTracking = true then
    ({ s1 with dirtyTiles := (collectWriteDirtyTiles s1.writeDirty s1.dirtyTiles).1,
               writeDirty := (collectWriteDirtyTiles s1.writeDirty s1.dirtyTiles).2.1,
               dirtyCount := (collectWriteDirtyTiles s1.writeDirty s1.dirtyTiles).2.2 },
     decide (dirtyThreshold < (collectWriteDirtyTiles s1.writeDirty s1.dirtyTiles).2.2))
  else if s1.forceFull = false then
    ({ s1 with snapBuf := s1.compBuf, compBuf := s1.macBuf,
               dirtyTiles := (detectDirtyTiles s1.macBuf s1.compBuf).1,
               dirtyCount := (detectDirtyTiles s1.macBuf s1.compBuf).2 },
     decide (dirtyThreshold < (detectDirtyTiles s1.macBuf s1.compBuf).2))
  else (s1, false)

/-- Lines 1034-1070: the render phase. Full update renders the frame and
pushes the whole display window, clearing `force_full_update`; else a
positive dirty count yields a per-tile update; else the skip counter
increments. All three paths then bump the frame counter and record the
wake time as `last_frame_ticks`. -/
def stepRender (s2 : VState) (doFull : Bool) (now : Nat) : VState × StepOutcome :=
  if doFull = true then
    ({ s2 with pushes := s2.pushes ++ [(0, 0, DISPLAY_WIDTH, DISPLAY_HEIGHT)],
               forceFull := false,
               perfFullCount := s2.perfFullCount + 1,
               perfFrameCount := s2.perfFrameCount + 1,
               lastFrameTicks := now }, StepOutcome.fullUpdate)
  else if 0 < s2.dirtyCount then
    ({ s2 with pushes := s2.pushes ++ tilePushRects s2.dirtyTiles,
               perfPartialCount := s2.perfPartialCount + 1,
               perfFrameCount := s2.perfFrameCount + 1,
               lastFrameTicks := now }, StepOutcome.tileUpdate)
  else
    ({ s2 with perfSkipCount := s2.perfSkipCount + 1,
               perfFrameCount := s2.perfFrameCount + 1,
               lastFrameTicks := now }, StepOutcome.skipped)

/-- One iteration of the `while (video_task_running)` loop body
(lines 963-1071), woken at tick `now`: consume the notification and the
legacy flag, abandon the step if a signal arrived within the minimum frame
interval, else detect and render. -/
def renderStep (s : VState) (now : Nat) : VState × StepOutcome :=
  if (decide (0 < s.notifCount) || s.frameReady) = true
      ∧ now - (stepSignalConsumed s).lastFrameTicks < minFrameTicks then
    (stepSignalConsumed s, StepOutcome.abandoned)
  else
    stepRender (stepDetect (stepSignalConsumed s)).1
      ((stepSignalConsumed s).forceFull || (stepDetect (stepSignalConsumed s)).2) now

/-- Embedding of `ESP32_monitor_desc::set_palette(pal, num)` (lines 193-208): store the
converted entries under the spinlock and set `force_full_update = true`. -/
def set_palette (s : VState) (pal : Nat → Nat) (num : Nat) : VState :=
  { s with
    palette := fun i =>
      if i < num ∧ i < 256
      then rgb888_to_rgb565 (pal (i * 3)) (pal (i * 3 + 1)) (pal (i * 3 + 2))
      else s.palette i,
    forceFull := true }

/-! ### Step characterization lemmas -/

theorem stepDetect_preserves (s1 : VState) :
    (stepDetect s1).1.forceFull = s1.forceFull ∧
    (stepDetect s1).1.pushes = s1.pushes ∧
    (stepDetect s1).1.perfFullCount = s1.perfFullCount ∧
    (stepDetect s1).1.perfPartialCount = s1.perfPartialCount ∧
    (stepDetect s1).1.perfSkipCount = s1.perfSkipCount ∧
    (stepDetect s1).1.notifCount = s1.notifCount ∧
    (stepDetect s1).1.frameReady = s1.frameReady := by
  unfold stepDetect
  split
  · exact ⟨rfl, rfl, rfl, rfl, rfl, rfl, rfl⟩
  · split
    · exact ⟨rfl, rfl, rfl, rfl, rfl, rfl, rfl⟩
    · exact ⟨rfl, rfl, rfl, rfl, rfl, rfl, rfl⟩

theorem renderStep_abandoned (s : VState) (now : Nat)
    (hsig : 0 < s.notifCount ∨ s.frameReady = true)
    (hel : now - s.lastFrameTicks < minFrameTicks) :
    renderStep s now = (stepSignalConsumed s, StepOutcome.abandoned) := by
  have hb : (decide (0 < s.notifCount) || s.frameReady) = true := by
    rcases hsig with h | h
    · simp [h]
    · simp [h]
  unfold renderStep
  rw [if_pos ⟨hb, hel⟩]

theorem renderStep_eq_of_not_limited (s : VState) (now : Nat)
    (h : ¬((0 < s.notifCount ∨ s.frameReady = true) ∧ now - s.lastFrameTicks < minFrameTicks)) :
    renderStep s now = stepRender (stepDetect (stepSignalConsumed s)).1
      (s.forceFull || (stepDetect (stepSignalConsumed s)).2) now := by
  have hcond : ¬((decide (0 < s.notifCount) || s.frameReady) = true
      ∧ now - (stepSignalConsumed s).lastFrameTicks < minFrameTicks) :=
    fun hc => h ⟨by simpa using hc.1, hc.2⟩
  unfold renderStep
  rw [if_neg hcond]
  rfl

/-! ### Concrete scheduler states for witnesses and counterexamples -/

def baseState : VState :=
  { frameReady := false, notifCount := 0, macBuf := fun _ => 0, snapBuf := fun _ => 0,
    compBuf := fun _ => 0, palette := fun _ => 0, writeDirty := fun _ => 0,
    dirtyTiles := fun _ => 0, dirtyCount := 0, forceFull := false, useWriteTracking := true,
    lastFrameTicks := 0, pushes := [], perfFullCount := 0, perfPartialCount := 0,
    perfSkipCount := 0, perfFrameCount := 0 }

/-- A state with a pending frame-ready signal and notification. -/
def sigState : VState := { baseState with frameReady := true, notifCount := 1 }

/-- A write bitmap with exactly 115 tile bits set (words 0-2 full, 19 bits
in word 3). -/
def state115 : VState :=
  { baseState with writeDirty := fun i => if i < 3 then 4294967295
      else if i = 3 then 524287 else 0 }

/-- A write bitmap with exactly 116 tile bits set (words 0-2 full, 20 bits
in word 3). -/
def state116 : VState :=
  { baseState with writeDirty := fun i => if i < 3 then 4294967295
      else if i = 3 then 1048575 else 0 }

/-- Claim C1: with no forced-full flag, the compositor performs a full
update exactly when the drained dirty count `d` exceeds
`(TOTAL_TILES * DIRTY_THRESHOLD_PERCENT) / 100 = 115`, i.e. when `d ≥ 116`,
and performs a per-tile (partial) update for every `d` with `0 < d ≤ 115`;
the boundary for N = 144, threshold 80% sits at 115 (partial) / 116 (full). -/
theorem threshold_decision :
    dirtyThreshold = 115 ∧
    ∀ (s : VState) (now : Nat),
      ¬((0 < s.notifCount ∨ s.frameReady = true) ∧ now - s.lastFrameTicks < minFrameTicks) →
      s.forceFull = false → s.useWriteTracking = true →
      (((renderStep s now).2 = StepOutcome.fullUpdate ↔
          dirtyThreshold < (collectWriteDirtyTiles s.writeDirty s.dirtyTiles).2.2) ∧
        (0 < (collectWriteDirtyTiles s.writeDirty s.dirtyTiles).2.2 →
          (collectWriteDirtyTiles s.writeDirty s.dirtyTiles).2.2 ≤ dirtyThreshold →
          (renderStep s now).2 = StepOutcome.tileUpdate)) := by
  refine ⟨rfl, ?_⟩
  intro s now h hf hw
  rw [renderStep_eq_of_not_limited s now h, hf]
  have hdet : stepDetect (stepSignalConsumed s)
      = ({ stepSignalConsumed s with
            dirtyTiles := (collectWriteDirtyTiles s.writeDirty s.dirtyTiles).1,
            writeDirty := (collectWriteDirtyTiles s.writeDirty s.dirtyTiles).2.1,
            dirtyCount := (collectWriteDirtyTiles s.writeDirty s.dirtyTiles).2.2 },
         decide (dirtyThreshold < (collectWriteDirtyTiles s.writeDirty s.dirtyTiles).2.2)) := by
    unfold stepDetect
    rw [if_pos ⟨hf, hw⟩]
    rfl
  have hd2 : (stepDetect (stepSignalConsumed s)).2
      = decide (dirtyThreshold < (collectWriteDirtyTiles s.writeDirty s.dirtyTiles).2.2) := by
    rw [hdet]
  have hdc : (stepDetect (stepSignalConsumed s)).1.dirtyCount
      = (collectWriteDirtyTiles s.writeDirty s.dirtyTiles).2.2 := by
    rw [hdet]
  rw [hd2]
  by_cases hth : dirtyThreshold < (collectWriteDirtyTiles s.writeDirty s.dirtyTiles).2.2
  · rw [decide_eq_true hth, Bool.false_or, stepRender, if_pos rfl]
    constructor
    · exact ⟨fun _ => hth, fun _ => rfl⟩
    · intro h1 h2
      omega
  · rw [decide_eq_false hth, Bool.false_or, stepRender, if_neg (by simp), hdc]
    constructor
    · constructor
      · intro hfull
        by_cases hpos : (0:Nat) < (collectWriteDirtyTiles s.writeDirty s.dirtyTiles).2.2
        · rw [if_pos hpos] at hfull
          exact StepOutcome.noConfusion hfull
        · rw [if_neg hpos] at hfull
          exact StepOutcome.noConfusion hfull
      · intro hlt
        exact absurd hlt hth
    · intro hpos h2
      rw [if_pos hpos]

/-- Witness for C1 at the boundary: 115 dirty tiles give a tile update,
116 give a full update. -/
theorem threshold_decision_witness :
    ((renderStep state115 100).2 = StepOutcome.fullUpdate ↔
        dirtyThreshold < (collectWriteDirtyTiles state115.writeDirty state115.dirtyTiles).2.2) ∧
    (renderStep state115 100).2 = StepOutcome.tileUpdate ∧
    (renderStep state116 100).2 = StepOutcome.fullUpdate := by
  have h115 := (threshold_decision.2 state115 100 (by decide) rfl rfl)
  have h116 := (threshold_decision.2 state116 100 (by decide) rfl rfl)
  exact ⟨h115.1, h115.2 (by decide) (by decide), h116.1.mpr (by decide)⟩

/-- Claim C3: a successful `set_palette` call sets the forced-full flag, so
the next render step that executes (is not abandoned by the rate limiter)
performs a full-frame update regardless of the dirty state — in particular
with a zero drained dirty count — and the flag is cleared by that full
update; conversely no step that does not complete a full update clears the
flag. -/
theorem set_palette_forces_full :
    (∀ (s : VState) (pal : Nat → Nat) (num now : Nat),
      ¬((0 < s.notifCount ∨ s.frameReady = true) ∧ now - s.lastFrameTicks < minFrameTicks) →
      (renderStep (set_palette s pal num) now).2 = StepOutcome.fullUpdate ∧
      (renderStep (set_palette s pal num) now).1.forceFull = false) ∧
    (∀ (s : VState) (now : Nat), (renderStep s now).2 ≠ StepOutcome.fullUpdate →
      (renderStep s now).1.forceFull = s.forceFull) := by
  constructor
  · intro s pal num now h
    rw [renderStep_eq_of_not_limited (set_palette s pal num) now h]
    constructor <;> rfl
  · intro s now h
    by_cases hc : (0 < s.notifCount ∨ s.frameReady = true) ∧
        now - s.lastFrameTicks < minFrameTicks
    · rw [renderStep_abandoned s now hc.1 hc.2]
      rfl
    · rw [renderStep_eq_of_not_limited s now hc] at h ⊢
      have hpres := (stepDetect_preserves (stepSignalConsumed s)).1
      by_cases hfb : (s.forceFull || (stepDetect (stepSignalConsumed s)).2) = true
      · exfalso
        apply h
        rw [hfb, stepRender, if_pos rfl]
      · have hfb2 : (s.forceFull || (stepDetect (stepSignalConsumed s)).2) = false := by
          revert hfb
          cases s.forceFull || (stepDetect (stepSignalConsumed s)).2 <;> simp
        rw [hfb2, stepRender, if_neg (by simp)]
        by_cases hpos : 0 < (stepDetect (stepSignalConsumed s)).1.dirtyCount
        · rw [if_pos hpos]
          show (stepDetect (stepSignalConsumed s)).1.forceFull = s.forceFull
          rw [hpres]
          rfl
        · rw [if_neg hpos]
          show (stepDetect (stepSignalConsumed s)).1.forceFull = s.forceFull
          rw [hpres]
          rfl

/-- Witness for C3: palette change on an otherwise idle, clean state still
yields a full update with the flag cleared. -/
theorem set_palette_forces_full_witness :
    (renderStep (set_palette baseState (fun _ => 0) 256) 100).2 = StepOutcome.fullUpdate ∧
    (renderStep (set_palette baseState (fun _ => 0) 256) 100).1.forceFull = false :=
  set_palette_forces_full.1 baseState (fun _ => 0) 256 100 (by decide)

/-- Counterexample for C6 as stated: at a concrete rate-limited wake the step
is abandoned, but the scheduler state does change — the frame-ready flag and
the notification count are consumed before the rate check. -/
theorem rate_limited_consumes_signal :
    (renderStep sigState 10).2 = StepOutcome.abandoned ∧
    sigState.frameReady = true ∧ sigState.notifCount = 1 ∧
    (renderStep sigState 10).1.frameReady = false ∧
    (renderStep sigState 10).1.notifCount = 0 := by
  exact ⟨rfl, rfl, rfl, rfl, rfl⟩

/-- Claim C6 (amended): a wake with a pending signal below the minimum frame
interval is abandoned with no render: the step returns `abandoned` and the
post-state is exactly the pre-state with the frame-ready flag and
notification count consumed (dirty bitmaps, dirty count, forced-full flag,
last-render time, push log and performance counters untouched); and no
pending work is lost — once the minimum interval has elapsed, a step from
the signal-consumed state is identical (same post-state, same outcome) to a
step from the signal-intact state. -/
theorem rate_limited_step_preserves_work :
    (∀ (s : VState) (now : Nat),
      (0 < s.notifCount ∨ s.frameReady = true) → now - s.lastFrameTicks < minFrameTicks →
      renderStep s now = ({ s with notifCount := 0, frameReady := false },
        StepOutcome.abandoned)) ∧
    (∀ (s : VState) (now : Nat), minFrameTicks ≤ now - s.lastFrameTicks →
      renderStep s now = renderStep { s with notifCount := 0, frameReady := false } now) := by
  constructor
  · intro s now hsig hel
    exact renderStep_abandoned s now hsig hel
  · intro s now hel
    unfold renderStep
    rw [if_neg (fun hc => absurd hc.2 (Nat.not_lt.mpr hel)),
        if_neg (fun hc => absurd hc.2 (Nat.not_lt.mpr hel))]
    rfl

/-- Witness for C6 (amended) at the concrete rate-limited state. -/
theorem rate_limited_step_preserves_work_witness :
    renderStep sigState 10 = ({ sigState with notifCount := 0, frameReady := false },
      StepOutcome.abandoned) :=
  rate_limited_step_preserves_work.1 sigState 10 (Or.inl (by decide)) (by decide)

/-- Claim C7: a non-abandoned step with no forced-full flag and a drained
dirty count of zero performs neither a full nor a per-tile update — the push
log is unchanged and the outcome is `skipped` — and increments the skip
counter by exactly one, leaving the full and partial counters alone. -/
theorem skip_step_when_clean :
    ∀ (s : VState) (now : Nat),
      ¬((0 < s.notifCount ∨ s.frameReady = true) ∧ now - s.lastFrameTicks < minFrameTicks) →
      s.forceFull = false → s.useWriteTracking = true →
      (collectWriteDirtyTiles s.writeDirty s.dirtyTiles).2.2 = 0 →
      (renderStep s now).2 = StepOutcome.skipped ∧
      (renderStep s now).1.perfSkipCount = s.perfSkipCount + 1 ∧
      (renderStep s now).1.perfFullCount = s.perfFullCount ∧
      (renderStep s now).1.perfPartialCount = s.perfPartialCount ∧
      (renderStep s now).1.pushes = s.pushes := by
  intro s now h hf hw hcnt
  rw [renderStep_eq_of_not_limited s now h, hf]
  have hdet : stepDetect (stepSignalConsumed s)
      = ({ stepSignalConsumed s with
            dirtyTiles := (collectWriteDirtyTiles s.writeDirty s.dirtyTiles).1,
            writeDirty := (collectWriteDirtyTiles s.writeDirty s.dirtyTiles).2.1,
            dirtyCount := (collectWriteDirtyTiles s.writeDirty s.dirtyTiles).2.2 },
         decide (dirtyThreshold < (collectWriteDirtyTiles s.writeDirty s.dirtyTiles).2.2)) := by
    unfold stepDetect
    rw [if_pos ⟨hf, hw⟩]
    rfl
  have hd2 : (stepDetect (stepSignalConsumed s)).2
      = decide (dirtyThreshold < (collectWriteDirtyTiles s.writeDirty s.dirtyTiles).2.2) := by
    rw [hdet]
  have hdc : (stepDetect (stepSignalConsumed s)).1.dirtyCount
      = (collectWriteDirtyTiles s.writeDirty s.dirtyTiles).2.2 := by
    rw [hdet]
  obtain ⟨hFF, hPU, hPF, hPP, hPS, -, -⟩ := stepDetect_preserves (stepSignalConsumed s)
  rw [hcnt] at hd2 hdc
  have hdz : decide (dirtyThreshold < 0) = false := by decide
  rw [hd2, hdz, Bool.or_self, stepRender, if_neg (by simp), hdc,
    if_neg (Nat.lt_irrefl 0)]
  refine ⟨rfl, ?_, ?_, ?_, ?_⟩
  · show (stepDetect (stepSignalConsumed s)).1.perfSkipCount + 1 = s.perfSkipCount + 1
    rw [hPS]
    rfl
  · show (stepDetect (stepSignalConsumed s)).1.perfFullCount = s.perfFullCount
    rw [hPF]
    rfl
  · show (stepDetect (stepSignalConsumed s)).1.perfPartialCount = s.perfPartialCount
    rw [hPP]
    rfl
  · show (stepDetect (stepSignalConsumed s)).1.pushes = s.pushes
    rw [hPU]
    rfl

/-- Witness for C7 on the idle clean state. -/
theorem skip_step_when_clean_witness :
    (renderStep baseState 100).2 = StepOutcome.skipped ∧
    (renderStep baseState 100).1.perfSkipCount = baseState.perfSkipCount + 1 ∧
    (renderStep baseState 100).1.perfFullCount = baseState.perfFullCount ∧
    (renderStep baseState 100).1.perfPartialCount = baseState.perfPartialCount ∧
    (renderStep baseState 100).1.pushes = baseState.pushes :=
  skip_step_when_clean baseState 100 (by decide) rfl rfl (by decide)

/-! ### Initialization (VideoInit, lines 1080-1213) -/

structure AllocOracle where
  macOk : Bool
  snapOk : Bool
  compOk : Bool
  dsiOk : Bool

structure InitResult where
  success : Bool
  macAllocated : Bool
  snapAllocated : Bool
  compAllocated : Bool
  dsiAllocated : Bool

/-- Embedding of `VideoInit` (lines 1080-1213), abstracted over which buffer allocations
succeed, mirroring the C control flow: allocate `mac_frame_buffer` (return
false if it fails); allocate `snapshot_buffer` and `compare_buffer` (on
failure free whichever succeeded and the Mac buffer, lines 1118-1125);
obtain the display framebuffer via `getDSIFramebuffer` — on failure the
code frees only `mac_frame_buffer` (lines 1140-1145), leaving
`snapshot_buffer` and `compare_buffer` allocated. The result records the
returned flag and which static buffer pointers are non-NULL on return. -/
def VideoInit (o : AllocOracle) : InitResult :=
  if o.macOk = false then
    { success := false, macAllocated := false, snapAllocated := false,
      compAllocated := false, dsiAllocated := false }
  else if o.snapOk = false ∨ o.compOk = false then
    { success := false, macAllocated := false, snapAllocated := false,
      compAllocated := false, dsiAllocated := false }
  else if o.dsiOk = false then
    { success := false, macAllocated := false, snapAllocated := true,
      compAllocated := true, dsiAllocated := false }
  else
    { success := true, macAllocated := true, snapAllocated := true,
      compAllocated := true, dsiAllocated := true }

/-- Claim C8 (code-bug evidence): when the Mac, snapshot and compare buffer
allocations succeed but the display framebuffer allocation fails,
`VideoInit` returns failure yet leaves the snapshot and compare buffers
allocated — the claimed release of every earlier allocation does not happen
at this failure point; the two earlier failure points do release all
partial allocations. -/
theorem videoInit_dsi_failure_leaks :
    VideoInit ⟨true, true, true, false⟩
      = { success := false, macAllocated := false, snapAllocated := true,
          compAllocated := true, dsiAllocated := false } ∧
    VideoInit ⟨false, true, true, true⟩
      = { success := false, macAllocated := false, snapAllocated := false,
          compAllocated := false, dsiAllocated := false } ∧
    VideoInit ⟨true, false, true, true⟩
      = { success := false, macAllocated := false, snapAllocated := false,
          compAllocated := false, dsiAllocated := false } ∧
    VideoInit ⟨true, true, false, true⟩
      = { success := false, macAllocated := false, snapAllocated := false,
          compAllocated := false, dsiAllocated := false } :=
  ⟨rfl, rfl, rfl, rfl⟩

/-! ### Tile snapshot and render (snapshotTile, renderTileFromSnapshot,
renderTileToBuffer; lines 470-621)

Byte buffers are functions `Nat → Nat`; the output RGB565 buffer likewise.
The two render functions share a textually identical inner loop (4 source
pixels per iteration via a 32-bit read, each written 2×2 scaled), differing
only in where each row's source bytes come from; that common row loop is
factored into `renderRowGroups`/`renderRowRemainder` with the row base
offset as parameter, exactly as the pointer arithmetic of the source. -/

/-- One `memcpy(dst + dstOff, src + srcOff, n)` on byte buffers. -/
def memcpyRange (dst : Nat → Nat) (dstOff : Nat) (src : Nat → Nat)
    (srcOff n : Nat) : Nat → Nat :=
  fun q => if dstOff ≤ q ∧ q < dstOff + n then src (srcOff + (q - dstOff)) else dst q

/-- Embedding of `snapshotTile(src_buffer, tile_x, tile_y, snapshot)` (lines 545-557):
row-by-row memcpy of the tile's bytes into a contiguous snapshot buffer
(modelled as starting from zeroes; every byte below
`TILE_HEIGHT * TILE_WIDTH` is overwritten). -/
def snapshotTile (src_buffer : Nat → Nat) (tile_x tile_y : Nat) : Nat → Nat :=
  (List.range TILE_HEIGHT).foldl
    (fun dst row =>
      memcpyRange dst (row * TILE_WIDTH) src_buffer
        ((tile_y * TILE_HEIGHT + row) * MAC_SCREEN_WIDTH + tile_x * TILE_WIDTH) TILE_WIDTH)
    (fun _ => 0)

/-- A single 16-bit store into the output buffer. -/
def store (buf : Nat → Nat) (idx val : Nat) : Nat → Nat :=
  fun q => if q = idx then val else buf q

/-- The sixteen stores of one 4-pixel group: pixels `c0 c0 c1 c1 c2 c2 c3 c3`
written to output row `r0` and duplicated to row `r1`, in source order. -/
def writeQuad (out : Nat → Nat) (r0 r1 c0 c1 c2 c3 : Nat) : Nat → Nat :=
  store (store (store (store (store (store (store (store
  (store (store (store (store (store (store (store (store out
    r0 c0) (r0+1) c0) (r0+2) c1) (r0+3) c1) (r0+4) c2) (r0+5) c2) (r0+6) c3) (r0+7) c3)
    r1 c0) (r1+1) c0) (r1+2) c1) (r1+3) c1) (r1+4) c2) (r1+5) c2) (r1+6) c3) (r1+7) c3

/-- The `for (x = 0; x < TILE_WIDTH - 3; x += 4)` loop of one row: ten
4-pixel groups, each a 32-bit read at `srcBase + 4*i` whose bytes are
palette-converted and written 2×2 scaled at output offsets `r0 + 8*i`
(row 0) and `r0 + TILE_WIDTH*PIXEL_SCALE + 8*i` (row 1). -/
def renderRowGroups (srcAt : Nat → Nat) (srcBase : Nat) (local_palette : Nat → Nat)
    (out : Nat → Nat) (r0 : Nat) : Nat → Nat :=
  (List.range (TILE_WIDTH / 4)).foldl
    (fun o i =>
      writeQuad o (r0 + 8 * i) (r0 + TILE_WIDTH * PIXEL_SCALE + 8 * i)
        (local_palette (word32At srcAt (srcBase + 4 * i) &&& 255))
        (local_palette ((word32At srcAt (srcBase + 4 * i) >>> 8) &&& 255))
        (local_palette ((word32At srcAt (srcBase + 4 * i) >>> 16) &&& 255))
        (local_palette ((word32At srcAt (srcBase + 4 * i) >>> 24) &&& 255)))
    out

/-- The remainder loop `for (; x < TILE_WIDTH; x++)` of one row; since
`TILE_WIDTH = 40` is divisible by 4 it performs no iterations, exactly as
in the source. -/
def renderRowRemainder (srcAt : Nat → Nat) (srcBase : Nat) (local_palette : Nat → Nat)
    (out : Nat → Nat) (r0 : Nat) : Nat → Nat :=
  (List.range' (TILE_WIDTH / 4 * 4) (TILE_WIDTH - TILE_WIDTH / 4 * 4)).foldl
    (fun o x =>
      store (store (store (store o
        (r0 + 2 * x) (local_palette (srcAt (srcBase + x))))
        (r0 + 2 * x + 1) (local_palette (srcAt (srcBase + x))))
        (r0 + TILE_WIDTH * PIXEL_SCALE + 2 * x) (local_palette (srcAt (srcBase + x))))
        (r0 + TILE_WIDTH * PIXEL_SCALE + 2 * x + 1) (local_palette (srcAt (srcBase + x))))
    out

/-- Embedding of `renderTileToBuffer(src_buffer, tile_x, tile_y, local_palette,
out_buffer)` (lines 470-533): for each tile row, the source pointer sits at
`(tile_y*TILE_HEIGHT + row) * MAC_SCREEN_WIDTH + tile_x*TILE_WIDTH` and the
output pointer advances by two scaled rows (`TILE_WIDTH*PIXEL_SCALE*2`). -/
def renderTileToBuffer (src_buffer : Nat → Nat) (tile_x tile_y : Nat)
    (local_palette : Nat → Nat) (out_buffer : Nat → Nat) : Nat → Nat :=
  (List.range TILE_HEIGHT).foldl
    (fun out row =>
      renderRowRemainder src_buffer
        ((tile_y * TILE_HEIGHT + row) * MAC_SCREEN_WIDTH + tile_x * TILE_WIDTH)
        local_palette
        (renderRowGroups src_buffer
          ((tile_y * TILE_HEIGHT + row) * MAC_SCREEN_WIDTH + tile_x * TILE_WIDTH)
          local_palette out (row * (TILE_WIDTH * PIXEL_SCALE * 2)))
        (row * (TILE_WIDTH * PIXEL_SCALE * 2)))
    out_buffer

/-- Embedding of `renderTileFromSnapshot(snapshot, local_palette, out_buffer)`
(lines 567-621): identical loop, but the source pointer walks the
contiguous snapshot, i.e. row base `row * TILE_WIDTH`. -/
def renderTileFromSnapshot (snapshot : Nat → Nat) (local_palette : Nat → Nat)
    (out_buffer : Nat → Nat) : Nat → Nat :=
  (List.range TILE_HEIGHT).foldl
    (fun out row =>
      renderRowRemainder snapshot (row * TILE_WIDTH) local_palette
        (renderRowGroups snapshot (row * TILE_WIDTH) local_palette out
          (row * (TILE_WIDTH * PIXEL_SCALE * 2)))
        (row * (TILE_WIDTH * PIXEL_SCALE * 2)))
    out_buffer

theorem foldl_congr_fun {α β : Type} (l : List β) (f g : α → β → α) (a : α)
    (h : ∀ acc x, x ∈ l → f acc x = g acc x) : l.foldl f a = l.foldl g a := by
  induction l generalizing a with
  | nil => rfl
  | cons x xs ih =>
    simp only [List.foldl_cons]
    rw [h a x (List.mem_cons_self x xs)]
    exact ih _ fun acc y hy => h acc y (List.mem_cons_of_mem x hy)

theorem memcpyRange_apply (dst : Nat → Nat) (dstOff : Nat) (src : Nat → Nat)
    (srcOff n q : Nat) :
    memcpyRange dst dstOff src srcOff n q
      = if dstOff ≤ q ∧ q < dstOff + n then src (srcOff + (q - dstOff)) else dst q := rfl

theorem snapshotTile_rows (src : Nat → Nat) (tx ty : Nat) : ∀ (k q : Nat),
    ((List.range k).foldl
      (fun dst row =>
        memcpyRange dst (row * TILE_WIDTH) src
          ((ty * TILE_HEIGHT + row) * MAC_SCREEN_WIDTH + tx * TILE_WIDTH) TILE_WIDTH)
      (fun _ => 0)) q
    = if q < k * TILE_WIDTH
      then src ((ty * TILE_HEIGHT + q / TILE_WIDTH) * MAC_SCREEN_WIDTH + tx * TILE_WIDTH
        + q % TILE_WIDTH)
      else 0 := by
  intro k
  induction k with
  | zero =>
    intro q
    simp
  | succ k ih =>
    intro q
    simp only [TILE_WIDTH, TILE_HEIGHT, MAC_SCREEN_WIDTH] at ih ⊢
    rw [List.range_succ, List.foldl_append]
    simp only [List.foldl_cons, List.foldl_nil]
    rw [memcpyRange_apply]
    by_cases hin : k * 40 ≤ q ∧ q < k * 40 + 40
    · rw [if_pos hin, if_pos (by omega)]
      congr 1
      have h1 : q / 40 = k := by omega
      have h2 : q - k * 40 = q % 40 := by omega
      rw [h1, h2]
    · rw [if_neg hin, ih q]
      by_cases hq : q < k * 40
      · rw [if_pos hq, if_pos (by omega)]
      · rw [if_neg hq, if_neg (by omega)]

theorem snapshotTile_apply (src : Nat → Nat) (tx ty q : Nat)
    (hq : q < TILE_HEIGHT * TILE_WIDTH) :
    snapshotTile src tx ty q
      = src ((ty * TILE_HEIGHT + q / TILE_WIDTH) * MAC_SCREEN_WIDTH + tx * TILE_WIDTH
          + q % TILE_WIDTH) := by
  unfold snapshotTile
  rw [snapshotTile_rows src tx ty TILE_HEIGHT q]
  rw [if_pos (by simp only [TILE_WIDTH, TILE_HEIGHT] at *; omega)]

theorem word32_snapshot_eq (src : Nat → Nat) (tx ty row i : Nat)
    (hrow : row < TILE_HEIGHT) (hi : i < TILE_WIDTH / 4) :
    word32At (snapshotTile src tx ty) (row * TILE_WIDTH + 4 * i)
      = word32At src ((ty * TILE_HEIGHT + row) * MAC_SCREEN_WIDTH + tx * TILE_WIDTH + 4 * i) := by
  simp only [TILE_WIDTH, TILE_HEIGHT] at hrow hi
  unfold word32At
  rw [snapshotTile_apply src tx ty _ (by simp only [TILE_WIDTH, TILE_HEIGHT]; omega),
      snapshotTile_apply src tx ty _ (by simp only [TILE_WIDTH, TILE_HEIGHT]; omega),
      snapshotTile_apply src tx ty _ (by simp only [TILE_WIDTH, TILE_HEIGHT]; omega),
      snapshotTile_apply src tx ty _ (by simp only [TILE_WIDTH, TILE_HEIGHT]; omega)]
  have e0 : (ty * TILE_HEIGHT + (row * TILE_WIDTH + 4 * i) / TILE_WIDTH) * MAC_SCREEN_WIDTH
      + tx * TILE_WIDTH + (row * TILE_WIDTH + 4 * i) % TILE_WIDTH
      = (ty * TILE_HEIGHT + row) * MAC_SCREEN_WIDTH + tx * TILE_WIDTH + 4 * i := by
    simp only [TILE_WIDTH, TILE_HEIGHT, MAC_SCREEN_WIDTH]
    omega
  have e1 : (ty * TILE_HEIGHT + (row * TILE_WIDTH + 4 * i + 1) / TILE_WIDTH) * MAC_SCREEN_WIDTH
      + tx * TILE_WIDTH + (row * TILE_WIDTH + 4 * i + 1) % TILE_WIDTH
      = (ty * TILE_HEIGHT + row) * MAC_SCREEN_WIDTH + tx * TILE_WIDTH + 4 * i + 1 := by
    simp only [TILE_WIDTH, TILE_HEIGHT, MAC_SCREEN_WIDTH]
    omega
  have e2 : (ty * TILE_HEIGHT + (row * TILE_WIDTH + 4 * i + 2) / TILE_WIDTH) * MAC_SCREEN_WIDTH
      + tx * TILE_WIDTH + (row * TILE_WIDTH + 4 * i + 2) % TILE_WIDTH
      = (ty * TILE_HEIGHT + row) * MAC_SCREEN_WIDTH + tx * TILE_WIDTH + 4 * i + 2 := by
    simp only [TILE_WIDTH, TILE_HEIGHT, MAC_SCREEN_WIDTH]
    omega
  have e3 : (ty * TILE_HEIGHT + (row * TILE_WIDTH + 4 * i + 3) / TILE_WIDTH) * MAC_SCREEN_WIDTH
      + tx * TILE_WIDTH + (row * TILE_WIDTH + 4 * i + 3) % TILE_WIDTH
      = (ty * TILE_HEIGHT + row) * MAC_SCREEN_WIDTH + tx * TILE_WIDTH + 4 * i + 3 := by
    simp only [TILE_WIDTH, TILE_HEIGHT, MAC_SCREEN_WIDTH]
    omega
  rw [e0, e1, e2, e3]

/-- Claim C10: for every source framebuffer contents, palette, initial
output buffer and tile coordinates (in particular all valid ones), copying
the tile with `snapshotTile` and converting it with
`renderTileFromSnapshot` produces exactly the same scaled output block as
converting directly from the framebuffer with `renderTileToBuffer`: the
snapshot path refines the direct path when no concurrent write intervenes. -/
theorem snapshot_render_refines_direct :
    ∀ (src local_palette out0 : Nat → Nat) (tile_x tile_y : Nat),
      renderTileFromSnapshot (snapshotTile src tile_x tile_y) local_palette out0
        = renderTileToBuffer src tile_x tile_y local_palette out0 := by
  intro src pal out0 tx ty
  unfold renderTileFromSnapshot renderTileToBuffer
  apply foldl_congr_fun
  intro acc row hrow
  have hrow' : row < TILE_HEIGHT := List.mem_range.mp hrow
  have hrem : ∀ (buf : Nat → Nat) (base : Nat) (o : Nat → Nat) (r0 : Nat),
      renderRowRemainder buf base pal o r0 = o := fun _ _ _ _ => rfl
  rw [hrem, hrem]
  unfold renderRowGroups
  apply foldl_congr_fun
  intro o i hi
  have hi' : i < TILE_WIDTH / 4 := List.mem_range.mp hi
  rw [word32_snapshot_eq src tx ty row i hrow' hi']

end VideoEsp32
